import Mathlib

/-!
Verification development for the ha_to_163 gateway.

The definitions below are a shallow embedding of the Python sources:
  - ha_to_163/device_discovery/ha_discovery.py  (entity resolution)
  - ha_to_163/utils/data_collector.py           (telemetry collection)
  - ha_to_163/utils/mqtt_client.py              (session and command bridge)

Strings are Lean `String`s; Python string operations used by the source
(`in`, `replace`, `strip`, `split`, `startswith`, `lower`, the `re.sub`
call) are embedded as structural functions on `List Char`.  Numeric
telemetry values are embedded as rationals; Python `float()` parsing is
embedded for the decimal literals the gateway handles (exponent and
inf/nan forms never occur in the modelled flows).  Fallible operations
(HTTP reads, JSON parsing) are embedded as `Option`-valued inputs.
-/

/-- Python `pat.isPrefixOf s` test used by `str.replace` and `startswith`. -/
def startsWithList : List Char → List Char → Bool
  | [], _ => true
  | _ :: _, [] => false
  | p :: ps, c :: cs => p == c && startsWithList ps cs

/-- Python `sub in s` substring containment on character lists. -/
def containsList (sub : List Char) : List Char → Bool
  | [] => sub.isEmpty
  | c :: cs => startsWithList sub (c :: cs) || containsList sub cs

/-- Python `sub in s` on strings. -/
def containsStr (sub s : String) : Bool := containsList sub.data s.data

/-- Python `s.startswith(pat)` on strings. -/
def startsWithStr (pat s : String) : Bool := startsWithList pat.data s.data

/-- One pass of Python `s.replace(pat, "")` (removal of every
non-overlapping occurrence, scanning left to right).  `skip` counts
characters of a matched occurrence still to be discarded. -/
def removeAllGo (pat : List Char) : Nat → List Char → List Char
  | _, [] => []
  | Nat.succ k, _ :: rest => removeAllGo pat k rest
  | 0, c :: rest =>
    if startsWithList pat (c :: rest) then removeAllGo pat (pat.length - 1) rest
    else c :: removeAllGo pat 0 rest

/-- Python `s.replace(pat, "")`.  An empty pattern leaves the string
unchanged (the source only ever replaces with the empty string, for
which Python returns the original string). -/
def pyRemoveAll (s pat : String) : String :=
  match pat.data with
  | [] => s
  | p :: ps => ⟨removeAllGo (p :: ps) 0 s.data⟩

/-- Python `s.strip('_')`. -/
def stripUnd (s : String) : String :=
  ⟨((s.data.dropWhile (· == '_')).reverse.dropWhile (· == '_')).reverse⟩

/-- Splitting on a separator character with Python `str.split(sep)`
semantics: `"".split('_') = [""]`, consecutive separators produce empty
fields. -/
def splitOnChar (sep : Char) : List Char → List (List Char)
  | [] => [[]]
  | c :: cs =>
    let r := splitOnChar sep cs
    if c == sep then [] :: r
    else
      match r with
      | h :: t => (c :: h) :: t
      | [] => [[c]]

/-- Python `s.split('_')`. -/
def splitU (s : String) : List String := (splitOnChar '_' s.data).map (fun l => (⟨l⟩ : String))

/-- Python `'_'.join(parts)`. -/
def joinU : List String → String
  | [] => ""
  | [x] => x
  | x :: y :: rest => x ++ "_" ++ joinU (y :: rest)

/-- Python `'.'.join(parts)`, used to model `split('.', 1)[1]`. -/
def joinDot : List String → String
  | [] => ""
  | [x] => x
  | x :: y :: rest => x ++ "." ++ joinDot (y :: rest)

/-- Python `s.split('.')`. -/
def splitDot (s : String) : List String := (splitOnChar '.' s.data).map (fun l => (⟨l⟩ : String))

/-- Python `s.split('/')`, used on MQTT topics. -/
def splitSlash (s : String) : List String := (splitOnChar '/' s.data).map (fun l => (⟨l⟩ : String))

/-- Python `s.lower()` (the identifiers involved are ASCII). -/
def pyLower (s : String) : String := ⟨s.data.map Char.toLower⟩

/-- Greedy run of decimal digits, the embedding of a `\d+` regex atom. -/
def spanDigits : List Char → List Char × List Char
  | [] => ([], [])
  | c :: cs =>
    if c.isDigit then
      let r := spanDigits cs
      (c :: r.1, r.2)
    else ([], c :: cs)

/-- Helper for `stripP`: works on the reversed character list and returns
the reversed remainder when the end of the string matches the regex
`_p\d+(_\d+)?$` of ha_discovery.py line 229 (either `_p` + digits, or
`_p` + digits + `_` + digits). -/
def stripPRev (r : List Char) : Option (List Char) :=
  let s1 := spanDigits r
  if s1.1.isEmpty then none
  else
    match s1.2 with
    | 'p' :: '_' :: rest => some rest
    | '_' :: r2 =>
      let s2 := spanDigits r2
      if s2.1.isEmpty then none
      else
        match s2.2 with
        | 'p' :: '_' :: rest => some rest
        | _ => none
    | _ => none

/-- Embedding of `re.sub(r'_p\d+(_\d+)?$', '', entity_core)`
(ha_discovery.py line 229).  The anchored pattern removes the longest
trailing `_p<digits>` or `_p<digits>_<digits>` group, if present. -/
def stripP (s : String) : String :=
  match stripPRev s.data.reverse with
  | some rest => ⟨rest.reverse⟩
  | none => s

/-- PROPERTY_MAPPING of ha_discovery.py lines 9-41, kept in Python dict
insertion order (iteration order matters for the friendly-name tier). -/
def PROPERTY_MAPPING : List (String × String) :=
  [("temperature", "temp"), ("temp", "temp"), ("temp_c", "temp"), ("temp_f", "temp"),
   ("humidity", "hum"), ("hum", "hum"), ("humidity_percent", "hum"),
   ("battery", "batt"), ("batt", "batt"), ("battery_level", "batt"), ("battery_percent", "batt"),
   ("state", "state"), ("on", "state"), ("off", "state"),
   ("current", "current"), ("electric_current", "current"), ("curr", "current"),
   ("electric_curr", "current"),
   ("voltage", "voltage"), ("vol", "voltage"), ("electric_vol", "voltage"),
   ("power", "power"), ("electric_power", "power"), ("active_power", "power"),
   ("energy", "energy"), ("power_consumption", "energy"), ("kwh", "energy"),
   ("consumption", "energy")]

/-- Python `PROPERTY_MAPPING[k]` guarded by `k in PROPERTY_MAPPING`. -/
def pmLookup (k : String) : Option String :=
  PROPERTY_MAPPING.findSome? (fun kv => if kv.1 == k then some kv.2 else none)

/-- The friendly-name tier shared by both matchers: the first key of
PROPERTY_MAPPING (in insertion order) contained in the lowered friendly
name decides the property. -/
def nameKeyMatch (fn : String) : Option String :=
  PROPERTY_MAPPING.findSome? (fun kv => if containsStr kv.1 fn then some kv.2 else none)

/-- Digit-run value as a natural number (`int(ds)` on a digit string). -/
def digitsVal (ds : List Char) : Nat := ds.foldl (fun a c => 10 * a + (c.toNat - 48)) 0

/-- Sign/integer-part/fraction-part decomposition of a Python `float()`
literal: optional surrounding whitespace, optional sign, digits with an
optional single point (`"5."`, `".5"` accepted, `"."` and embedded
units such as `"220 V"` rejected).  Returns
(negative?, integer digits, fraction digits, fraction length).
Exponent and inf/nan forms of `float()` are not used by the gateway and
are not modelled. -/
def parseFloatParts (s : String) : Option (Bool × Nat × Nat × Nat) :=
  let cs0 := s.data.dropWhile Char.isWhitespace
  let cs1 := (cs0.reverse.dropWhile Char.isWhitespace).reverse
  let signed : Bool × List Char :=
    match cs1 with
    | '-' :: t => (true, t)
    | '+' :: t => (false, t)
    | t => (false, t)
  let ipr := spanDigits signed.2
  match ipr.2 with
  | [] => if ipr.1.isEmpty then none else some (signed.1, digitsVal ipr.1, 0, 0)
  | '.' :: fr =>
    let fpr := spanDigits fr
    if fpr.2.isEmpty && !(ipr.1.isEmpty && fpr.1.isEmpty) then
      some (signed.1, digitsVal ipr.1, digitsVal fpr.1, fpr.1.length)
    else none
  | _ => none

/-- The rational value of a parsed `float()` literal. -/
def partsToQ (p : Bool × Nat × Nat × Nat) : ℚ :=
  (if p.1 then -1 else 1) * ((p.2.1 : ℚ) + (p.2.2.1 : ℚ) / 10 ^ p.2.2.2)

/-- Embedding of Python `float(state)` (data_collector.py line 50);
`none` models the caught `ValueError`/`TypeError`. -/
def parseFloat (s : String) : Option ℚ := (parseFloatParts s).map partsToQ

/-- Round half to even on rationals, the rounding mode of Python
`round` (exact for the decimal values the gateway handles). -/
def rhe (q : ℚ) : ℤ :=
  let f := ⌊q⌋
  let r := q - (f : ℚ)
  if r < 1/2 then f
  else if (1 : ℚ)/2 < r then f + 1
  else if f % 2 = 0 then f else f + 1

/-- Python `round(x, n)` on the exact rational value. -/
def roundTo (n : ℕ) (q : ℚ) : ℚ := ((rhe (q * 10 ^ n) : ℚ)) / 10 ^ n

/-- Per-entity conversion of DataCollector.collect_device_data
(data_collector.py lines 44-67): `"on"`/`"off"` become 1/0 unscaled;
any other state goes through `float()`, the conversion factor for the
property (default 1.0), and the per-property rounding chain; a failed
`float()` yields `none` (the property is skipped). -/
def collectValue (prop st : String) (factors : List (String × ℚ)) : Option ℚ :=
  if st == "on" || st == "off" then some (if st == "on" then 1 else 0)
  else
    match parseFloat st with
    | none => none
    | some v =>
      let factor := (factors.lookup prop).getD 1
      let cv := v * factor
      let cv :=
        if prop == "current" then roundTo 2 cv
        else if prop == "active_power" || prop == "voltage" || prop == "frequency" then
          roundTo 1 cv
        else if prop == "energy" then roundTo 3 cv
        else cv
      some cv

/-- A `sub_devices` entry as consumed by HADiscovery and MQTTClient
(config keys: id, type, ha_entity_prefix, supported_properties,
conversion_factors, product_key, device_name, enabled). -/
structure DeviceConfig where
  id : String
  type : String
  entityPfx : String
  supported_properties : List String
  conversion_factors : List (String × ℚ)
  product_key : String
  device_name : String
  enabled : Bool
deriving DecidableEq

/-- A Home Assistant entity as seen by the discovery loop: its id and
the two attributes read from it (absent attributes are the empty
string, matching `attributes.get(..., "")`). -/
structure EntityState where
  entity_id : String
  device_class : String
  friendly_name : String
deriving DecidableEq

/-- One value of the `matched_devices` dict: the device config, the
resolved property → entity-id dict (insertion ordered), and the
pre-computed cleaned prefix. -/
structure DeviceEntry where
  config : DeviceConfig
  entities : List (String × String)
  cleanedPfx : String
deriving DecidableEq

/-- The `matched_devices` dict (insertion ordered). -/
abbrev MatchState := List (String × DeviceEntry)

/-- Python dict assignment `d[k] = v`: overwrite in place if the key
exists, else append. -/
def dictInsert : MatchState → String × DeviceEntry → MatchState
  | [], kv => [kv]
  | (k, v) :: rest, kv => if k == kv.1 then (k, kv.2) :: rest else (k, v) :: dictInsert rest kv

/-- Initial `matched_devices` entry for one device
(ha_discovery.py lines 98-113): environment sensors with a prefix
starting `sensor.` get that fragment removed. -/
def initEntry (d : DeviceConfig) : String × DeviceEntry :=
  (d.id, DeviceEntry.mk d []
    (if d.type == "sensor" && startsWithStr "sensor." d.entityPfx then
      ⟨d.entityPfx.data.drop 7⟩
    else d.entityPfx))

/-- The `matched_devices` dict after the set-up loop. -/
def initState (devs : List DeviceConfig) : MatchState :=
  devs.foldl (fun st d => dictInsert st (initEntry d)) []

/-- Property-name determination of `_match_environment_entity`
(ha_discovery.py lines 180-204): device_class tier, then the
underscore-token tier, then the full cleaned suffix, then the
friendly-name tier.  Each later tier runs only while `property_name`
is still unset. -/
def envMatchProperty (dc : String) (parts : List String) (et fn : String) : Option String :=
  let p1 := pmLookup dc
  let p2 := if p1.isNone then parts.findSome? pmLookup else p1
  let p3 := if p2.isNone then pmLookup et else p2
  if p3.isNone then nameKeyMatch fn else p3

/-- Property-name determination of `_match_electric_entity`
(ha_discovery.py lines 234-255): full cleaned suffix, then the
underscore-token tier, then the friendly-name tier.  The function
receives `device_class` like the Python method but its body never
reads it. -/
def elecPropertyOf (dc cs fn : String) : Option String :=
  let p1 := pmLookup cs
  let p2 := if p1.isNone then (splitU cs).findSome? pmLookup else p1
  if p2.isNone then nameKeyMatch fn else p2

/-- Acceptance step shared by both matchers (ha_discovery.py lines
206-210 and 257-261): add the entity for the property unless the
property already has one. -/
def acceptMatch (entry : DeviceEntry) (p eid : String) : DeviceEntry :=
  if (entry.entities.lookup p).isSome then entry
  else DeviceEntry.mk entry.config (entry.entities ++ [(p, eid)]) entry.cleanedPfx

/-- Per-device decision of `_match_environment_entity`
(ha_discovery.py lines 166-207): the device must be an environment
sensor, its cleaned prefix must occur in the entity core, the cleaned
suffix must be non-empty, a property must match, and the property must
be supported; `some p` means the loop accepts the entity for property
`p` (and breaks), `none` that it moves to the next device. -/
def envEntryProp (core dc fn : String) (entry : DeviceEntry) : Option String :=
  if entry.config.type == "sensor" && containsStr entry.cleanedPfx core
      && !(joinU (splitU (stripUnd (pyRemoveAll core entry.cleanedPfx))) == "") then
    match envMatchProperty dc (splitU (stripUnd (pyRemoveAll core entry.cleanedPfx)))
        (joinU (splitU (stripUnd (pyRemoveAll core entry.cleanedPfx)))) fn with
    | some p => if p ∈ entry.config.supported_properties then some p else none
    | none => none
  else none

/-- `_match_environment_entity` (ha_discovery.py lines 162-211): walk
the devices in dict order; on the first device that accepts the
entity, store it (unless the property is already resolved) and stop. -/
def matchEnvLoop (eid core dc fn : String) : MatchState → MatchState
  | [] => []
  | (did, entry) :: rest =>
    match envEntryProp core dc fn entry with
    | some p => (did, acceptMatch entry p eid) :: rest
    | none => (did, entry) :: matchEnvLoop eid core dc fn rest

/-- Per-device decision of `_match_electric_entity` (ha_discovery.py
lines 216-258): the device must be electric (switch/socket/breaker),
its prefix must occur in the entity core, the entity domain must be
switch or sensor, and the matched property must be supported. -/
def elecEntryProp (domain core dc fn : String) (entry : DeviceEntry) : Option String :=
  if (entry.config.type == "switch" || entry.config.type == "socket"
        || entry.config.type == "breaker")
      && containsStr entry.cleanedPfx core
      && (domain == "switch" || domain == "sensor") then
    match elecPropertyOf dc (stripUnd (pyRemoveAll (stripP core) entry.cleanedPfx)) fn with
    | some p => if p ∈ entry.config.supported_properties then some p else none
    | none => none
  else none

/-- `_match_electric_entity` (ha_discovery.py lines 213-262); `domain`
is the entity-id part before the first dot. -/
def matchElecLoop (eid domain core dc fn : String) : MatchState → MatchState
  | [] => []
  | (did, entry) :: rest =>
    match elecEntryProp domain core dc fn entry with
    | some p => (did, acceptMatch entry p eid) :: rest
    | none => (did, entry) :: matchElecLoop eid domain core dc fn rest

/-- Matcher dispatch of `match_entities_to_devices` (ha_discovery.py
lines 130-137): the environment matcher runs for `sensor` entities,
then the electric matcher for `sensor`/`switch` entities, on the
updated state. -/
def processEntityCore (eid domain core dc fn : String) (st : MatchState) : MatchState :=
  if domain == "sensor" || domain == "switch" then
    matchElecLoop eid domain core dc fn
      (if domain == "sensor" then matchEnvLoop eid core dc fn st else st)
  else
    (if domain == "sensor" then matchEnvLoop eid core dc fn st else st)

/-- Per-entity step of `match_entities_to_devices` (ha_discovery.py
lines 117-137): skip ids without a dot, split the id at the first dot
into domain and core, lower the attributes, and dispatch to the
matchers. -/
def processEntity (st : MatchState) (e : EntityState) : MatchState :=
  if containsStr "." e.entity_id then
    processEntityCore e.entity_id ((splitDot e.entity_id).headD "")
      (joinDot (splitDot e.entity_id).tail) (pyLower e.device_class)
      (pyLower e.friendly_name) st
  else st

/-- `HADiscovery.match_entities_to_devices`: the enabled-device filter
of `__init__` (line 50), the set-up loop, then one pass over the
entity list. -/
def matchEntitiesToDevices (entities : List EntityState) (devs : List DeviceConfig) : MatchState :=
  entities.foldl processEntity (initState (devs.filter (fun d => d.enabled)))

def sampleSocket : DeviceConfig :=
  DeviceConfig.mk "sw1" "socket" "sw1_" ["power", "energy"] [] "pk1" "dn1" true

/-- DataCollector.collect_device_data (data_collector.py lines 18-75)
with the entity reads abstracted as `env : entity_id → Option raw
state` (`none` covers a non-200 status or an exception; read failures
just skip the property).  The payload keeps the iteration order of the
resolved-entities dict. -/
def collectDeviceData (env : String → Option String) (dev : DeviceConfig) :
    List (String × String) → List (String × ℚ)
  | [] => []
  | (prop, eid) :: rest =>
    match env eid with
    | none => collectDeviceData env dev rest
    | some st =>
      match collectValue prop st dev.conversion_factors with
      | none => collectDeviceData env dev rest
      | some v => (prop, v) :: collectDeviceData env dev rest

/-- The part of the broker/HTTP environment a control command can
observe: the `GET /api/states` result (`none` = non-200 or exception)
and the status code of the `POST /api/services/switch/turn_*` call. -/
structure HAEnv where
  states : Option (List String)
  actionStatus : Nat

/-- Externally visible actions of the command bridge, in emission
order: a Home Assistant service invocation, a CommonService_reply
publication (topic routing key, command id, code, `data.state`), or a
`_report_state` telemetry publication (`params = {state: _}`). -/
inductive Effect where
  | haAction : String → String → Effect
  | reply : String → String → Int → Nat → Option Int → Effect
  | publishState : String → String → Int → Effect
deriving DecidableEq

/-- Entity filter of `_control_switch_or_socket` (mqtt_client.py lines
226-231): id starts with the device prefix, contains "on", and its
domain is `switch`. -/
def controlCandidates (entities : List String) (pfx : String) : List String :=
  entities.filter (fun e =>
    startsWithStr pfx e && containsStr "on" e && ((splitDot e).headD "" == "switch"))

/-- `MQTTClient._control_switch_or_socket` (mqtt_client.py lines
199-292): resolve the control entity, invoke the turn_on/turn_off
service, and on HTTP 200 reply success (`code` 200, `data.state`) and
re-publish the state; every failure branch emits exactly one `code` 500
reply. -/
def controlSwitchOrSocket (env : HAEnv) (dev : DeviceConfig) (target : Int)
    (pk dn : String) (cid : Int) : List Effect :=
  let haState := if target == 1 then "on" else "off"
  match env.states with
  | none => [Effect.reply pk dn cid 500 none]
  | some es =>
    match controlCandidates es dev.entityPfx with
    | [] => [Effect.reply pk dn cid 500 none]
    | ent :: _ =>
      let act := Effect.haAction ("turn_" ++ haState) ent
      if env.actionStatus == 200 then
        let actual : Int := if haState == "on" then 1 else 0
        [act, Effect.reply pk dn cid 200 (some actual),
          Effect.publishState dev.product_key dev.device_name actual]
      else [act, Effect.reply pk dn cid 500 none]

/-- Device lookup of `_handle_control_command` (mqtt_client.py lines
162-169). -/
def findTargetDevice (devs : List DeviceConfig) (pk dn : String) : Option DeviceConfig :=
  devs.find? (fun d => d.product_key == pk && d.device_name == dn && d.enabled)

/-- `MQTTClient._handle_control_command` (mqtt_client.py lines
160-197).  `stateParam` models `payload.get("params", payload)` then
the optional `"state"` member. -/
def handleControlCommand (env : HAEnv) (devs : List DeviceConfig) (pk dn : String)
    (stateParam : Option Int) (cid : Int) : List Effect :=
  match findTargetDevice devs pk dn with
  | none => [Effect.reply pk dn cid 500 none]
  | some dev =>
    match stateParam with
    | some t =>
      if dev.type == "switch" || dev.type == "socket" then
        controlSwitchOrSocket env dev t pk dn cid
      else [Effect.reply pk dn cid 500 none]
    | none => [Effect.reply pk dn cid 500 none]

/-- A decoded inbound payload: the optional `id` member and the
optional state parameter.  `_on_message` passes the whole dict on; only
these two members are ever read. -/
structure InboundPayload where
  id : Option Int
  stateParam : Option Int
deriving DecidableEq

/-- `MQTTClient._on_message` (mqtt_client.py lines 142-158): a payload
that fails `json.loads` (`parsed = none`) is only logged; a topic
without at least three `/`-segments starting with `sys` falls through
silently; otherwise the control command is handled with the payload id
(default: current epoch milliseconds). -/
def onMessage (env : HAEnv) (devs : List DeviceConfig) (nowMs : Int) (topic : String)
    (parsed : Option InboundPayload) : List Effect :=
  match parsed with
  | none => []
  | some pl =>
    let parts := splitSlash topic
    if 3 ≤ parts.length ∧ parts.headD "" = "sys" then
      handleControlCommand env devs (parts.getD 1 "") (parts.getD 2 "")
        pl.stateParam (pl.id.getD nowMs)
    else []

/-- Stored reconnect delay after one `_schedule_reconnect` call
(mqtt_client.py lines 134-140): doubled while under 60, then the call
sleeps for the updated value. -/
def scheduleReconnectStep (d : Nat) : Nat := if d < 60 then d * 2 else d

/-- `self.reconnect_delay = 1` of `__init__` (mqtt_client.py line 20). -/
def initialReconnectDelay : Nat := 1

/-- The stored delay — equal to the wait actually slept — after `n`
consecutive unexpected disconnects with no successful connect. -/
def delayAfter : Nat → Nat
  | 0 => initialReconnectDelay
  | n + 1 => scheduleReconnectStep (delayAfter n)

/-- `_on_connect` with `rc == 0` (mqtt_client.py line 108): the delay
is reset to 1 whatever its current value. -/
def onConnectSuccessDelay (_d : Nat) : Nat := 1

def sampleSwitch : DeviceConfig :=
  DeviceConfig.mk "s1" "switch" "switch.sw1" ["state", "power"] [] "pk" "dn" true

/-- The tier order asserted by the specification for both matchers:
class attribute, then exact full cleaned suffix, then underscore
tokens, then friendly-name substring (environment variant; the token
source is the parts list). -/
def specTierEnv (dc : String) (parts : List String) (et fn : String) : Option String :=
  pmLookup dc <|> pmLookup et <|> parts.findSome? pmLookup <|> nameKeyMatch fn

/-- The tier order asserted by the specification, electric variant:
class attribute, exact full cleaned suffix, tokens, name substring. -/
def specTierElec (dc cs fn : String) : Option String :=
  pmLookup dc <|> pmLookup cs <|> (splitU cs).findSome? pmLookup <|> nameKeyMatch fn

/-- The key set of a resolved-entities dict is inside the device's
supported properties. -/
def goodEntry (entry : DeviceEntry) : Prop :=
  ∀ p ∈ entry.entities.map Prod.fst, p ∈ entry.config.supported_properties

/-- `goodEntry` for every device of a `matched_devices` state. -/
def goodState (st : MatchState) : Prop := ∀ x ∈ st, goodEntry x.2

/-- Every property → entity binding of `a` survives in `b`. -/
def entryKeeps (a b : DeviceEntry) : Prop :=
  ∀ p e, a.entities.lookup p = some e → b.entities.lookup p = some e

/-- Pointwise binding preservation between two states: same devices in
the same order, and every resolved binding kept. -/
def stateKeeps : MatchState → MatchState → Prop :=
  List.Forall₂ (fun x y => x.1 = y.1 ∧ entryKeeps x.2 y.2)

/-- Modelled from the claim text for C6: the first signed decimal or
integer token inside a raw state string, scanning left to right
(so `"220 V"` has first token 220). -/
def parseNumAtParts (l : List Char) : Option (Bool × Nat × Nat × Nat) :=
  let signed : Bool × List Char :=
    match l with
    | '-' :: t => (true, t)
    | '+' :: t => (false, t)
    | t => (false, t)
  let ipr := spanDigits signed.2
  match ipr.2 with
  | '.' :: fr =>
    let fpr := spanDigits fr
    if ipr.1.isEmpty && fpr.1.isEmpty then none
    else some (signed.1, digitsVal ipr.1, digitsVal fpr.1, fpr.1.length)
  | _ => if ipr.1.isEmpty then none else some (signed.1, digitsVal ipr.1, 0, 0)

/-- Modelled from the claim text for C6: scan for the first position
where a signed number can be read. -/
def claimExtractParts : List Char → Option (Bool × Nat × Nat × Nat)
  | [] => none
  | c :: cs =>
    match parseNumAtParts (c :: cs) with
    | some v => some v
    | none => claimExtractParts cs

/-- Modelled from the claim text for C6: value of the first signed
numeric token of a raw state. -/
def specExtractNumber (s : String) : Option ℚ := (claimExtractParts s.data).map partsToQ

/-- The typed conversion asserted by claim C6: `on`/`off` to 1/0,
`trip` to 2 for breaker devices, and first-numeric-token extraction
for everything else. -/
def specTypedConversion (deviceType state : String) : Option ℚ :=
  if state == "on" then some 1
  else if state == "off" then some 0
  else if deviceType == "breaker" && state == "trip" then some 2
  else specExtractNumber state

/-- The rounding policy asserted by claim C7: current to 2 decimals,
voltage/temperature/humidity/frequency to 1, energy to 3. -/
def specRoundPolicy (prop : String) (q : ℚ) : ℚ :=
  if prop == "current" then roundTo 2 q
  else if prop == "voltage" || prop == "temp" || prop == "hum" || prop == "frequency" then
    roundTo 1 q
  else if prop == "energy" then roundTo 3 q
  else q

/-- The scaled-and-rounded conversion asserted by claim C7. -/
def specScaledValue (prop st : String) (factors : List (String × ℚ)) : Option ℚ :=
  if st == "on" || st == "off" then some (if st == "on" then 1 else 0)
  else (parseFloat st).map (fun v => specRoundPolicy prop (v * ((factors.lookup prop).getD 1)))

/-- The rounding table actually implemented by
data_collector.py lines 56-62: current 2, active_power/voltage/
frequency 1, energy 3 decimals; everything else unrounded. -/
def roundTable : List (String × Nat) :=
  [("current", 2), ("active_power", 1), ("voltage", 1), ("frequency", 1), ("energy", 3)]

/-- Table-driven form of the implemented rounding chain. -/
def tableRound (prop : String) (q : ℚ) : ℚ :=
  match roundTable.lookup prop with
  | some n => roundTo n q
  | none => q

def sampleSocket2 : DeviceConfig :=
  DeviceConfig.mk "so2" "socket" "so2_" ["state", "current"] [("current", 2)] "pk2" "dn2" true

/-- Claim C1 (corrected), counterexample: the implemented matchers do
not follow the claimed tier order.  The electric matcher never
consults the class attribute: with class `temperature` and cleaned
suffix `power` it yields `power` where the claimed order yields
`temp`.  The environment matcher consults underscore tokens before the
full cleaned suffix: for suffix `power_consumption` it yields `power`
where the claimed order yields `energy`. -/
theorem c1_tier_priority_cex :
    elecPropertyOf "temperature" "power" "" = some "power" ∧
    specTierElec "temperature" "power" "" = some "temp" ∧
    envMatchProperty "" ["power", "consumption"] "power_consumption" "" = some "power" ∧
    specTierEnv "" ["power", "consumption"] "power_consumption" "" = some "energy" := by
  refine ⟨by decide, by decide, by decide, by decide⟩

/-- Claim C1 (corrected), amended: the environment matcher evaluates
class attribute, then underscore tokens, then the full cleaned suffix,
then the friendly name, first success winning; the electric matcher
evaluates full cleaned suffix, then tokens, then the friendly name,
and never consults the class attribute. -/
theorem c1_tier_priority_amended :
    (∀ dc parts et fn, envMatchProperty dc parts et fn =
      (pmLookup dc <|> parts.findSome? pmLookup <|> pmLookup et <|> nameKeyMatch fn)) ∧
    (∀ dc dc2 cs fn, elecPropertyOf dc cs fn =
        (pmLookup cs <|> (splitU cs).findSome? pmLookup <|> nameKeyMatch fn)
      ∧ elecPropertyOf dc cs fn = elecPropertyOf dc2 cs fn) := by
  constructor
  · intro dc parts et fn
    unfold envMatchProperty
    cases h1 : pmLookup dc <;>
      simp only [h1, Option.some_orElse, Option.none_orElse, Option.isNone_some,
        Option.isNone_none, if_true, if_false, Bool.false_eq_true]
    cases h2 : parts.findSome? pmLookup <;>
      simp only [h2, Option.some_orElse, Option.none_orElse, Option.isNone_some,
        Option.isNone_none, if_true, if_false, Bool.false_eq_true]
    cases h3 : pmLookup et <;>
      simp only [h3, Option.some_orElse, Option.none_orElse, Option.isNone_some,
        Option.isNone_none, if_true, if_false, Bool.false_eq_true]
  · intro dc dc2 cs fn
    refine ⟨?_, rfl⟩
    unfold elecPropertyOf
    cases h1 : pmLookup cs <;>
      simp only [h1, Option.some_orElse, Option.none_orElse, Option.isNone_some,
        Option.isNone_none, if_true, if_false, Bool.false_eq_true]
    cases h2 : (splitU cs).findSome? pmLookup <;>
      simp only [h2, Option.some_orElse, Option.none_orElse, Option.isNone_some,
        Option.isNone_none, if_true, if_false, Bool.false_eq_true]

/-- Claim C4 (corrected), counterexample: an entity whose class
attribute is `power_consumption` but whose cleaned identifier suffix is
`power` is resolved to the instantaneous-power property, because the
electric matcher ignores the class attribute entirely. -/
theorem c4_power_consumption_cex :
    matchEntitiesToDevices [EntityState.mk "sensor.sw1_power" "power_consumption" ""]
        [sampleSocket] =
      [("sw1", DeviceEntry.mk sampleSocket [("power", "sensor.sw1_power")] "sw1_")] ∧
    (DeviceEntry.mk sampleSocket [("power", "sensor.sw1_power")] "sw1_").entities.lookup
        "energy" = none := by
  refine ⟨by decide, by decide⟩

/-- Claim C4 (corrected), amended: in the tier that does consult the
class attribute (the environment matcher) `power_consumption` maps to
`energy`; in the electric matcher an exact cleaned suffix
`power_consumption` maps to `energy` even though its token tier would
yield `power`; but the electric matcher never reads the class
attribute, so a class of `power_consumption` with a different suffix
can still resolve to `power`. -/
theorem c4_power_consumption_amended :
    (∀ parts et fn, envMatchProperty "power_consumption" parts et fn = some "energy") ∧
    (∀ dc fn, elecPropertyOf dc "power_consumption" fn = some "energy") ∧
    (splitU "power_consumption").findSome? pmLookup = some "power" ∧
    elecPropertyOf "power_consumption" "power" "" = some "power" := by
  refine ⟨fun parts et fn => ?_, fun dc fn => ?_, by decide, by decide⟩
  · unfold envMatchProperty
    rw [show pmLookup "power_consumption" = some "energy" from by decide]
    simp
  · unfold elecPropertyOf
    rw [show pmLookup "power_consumption" = some "energy" from by decide]
    simp

lemma strAppendData (s t : String) : (s ++ t).data = s.data ++ t.data := rfl

lemma stripPRev_p3 (r : List Char) : stripPRev ('3' :: 'p' :: '_' :: r) = some r := rfl

lemma stripPRev_p3_2 (r : List Char) :
    stripPRev ('2' :: '_' :: '3' :: 'p' :: '_' :: r) = some r := rfl

lemma stripP_append_p3 (s : String) : stripP (s ++ "_p3") = s := by
  unfold stripP
  rw [show (s ++ "_p3").data.reverse = '3' :: 'p' :: '_' :: s.data.reverse from by
    rw [strAppendData, show ("_p3" : String).data = ['_', 'p', '3'] from rfl]
    simp]
  rw [stripPRev_p3]
  simp

lemma stripP_append_p3_2 (s : String) : stripP (s ++ "_p3_2") = s := by
  unfold stripP
  rw [show (s ++ "_p3_2").data.reverse = '2' :: '_' :: '3' :: 'p' :: '_' :: s.data.reverse from by
    rw [strAppendData, show ("_p3_2" : String).data = ['_', 'p', '3', '_', '2'] from rfl]
    simp]
  rw [stripPRev_p3_2]
  simp

/-- Claim C5 (corrected), counterexample: the regex strips `_p3` but
not `_p_3_2` (the letter must be followed immediately by digits), so
`sensor.sw1_power_consumption_p_3_2` resolves to `power` via the token
tier while the stripped identifier `sensor.sw1_power_consumption`
resolves to `energy` via the exact-suffix tier — the two assignments
differ, contradicting the claim. -/
theorem c5_suffix_cleaning_cex :
    matchEntitiesToDevices [EntityState.mk "sensor.sw1_power_consumption_p_3_2" "" ""]
        [sampleSocket] =
      [("sw1", DeviceEntry.mk sampleSocket
        [("power", "sensor.sw1_power_consumption_p_3_2")] "sw1_")] ∧
    matchEntitiesToDevices [EntityState.mk "sensor.sw1_power_consumption" "" ""]
        [sampleSocket] =
      [("sw1", DeviceEntry.mk sampleSocket
        [("energy", "sensor.sw1_power_consumption")] "sw1_")] := by
  refine ⟨by decide, by decide⟩

/-- Claim C5 (corrected), amended: a trailing `_p3` or `_p3_2` suffix
(letter `p` immediately followed by a digit group, optionally one more
digit group) is stripped before matching, so for any identifier core
whose remainder does not itself end in such a pattern the cleaned
suffix, and hence the matched property, coincide with those of the
stripped identifier; `_p_3_2`-style suffixes are not stripped. -/
theorem c5_suffix_cleaning_amended :
    ∀ (s pfx dc fn : String), stripP s = s →
      stripUnd (pyRemoveAll (stripP (s ++ "_p3")) pfx) =
        stripUnd (pyRemoveAll (stripP s) pfx) ∧
      stripUnd (pyRemoveAll (stripP (s ++ "_p3_2")) pfx) =
        stripUnd (pyRemoveAll (stripP s) pfx) ∧
      elecPropertyOf dc (stripUnd (pyRemoveAll (stripP (s ++ "_p3")) pfx)) fn =
        elecPropertyOf dc (stripUnd (pyRemoveAll (stripP s) pfx)) fn := by
  intro s pfx dc fn h
  rw [stripP_append_p3, stripP_append_p3_2, h]
  exact ⟨rfl, rfl, rfl⟩

/-- Witness for c5_suffix_cleaning_amended at the concrete core
`power_consumption` (which the regex leaves unchanged). -/
theorem c5_suffix_cleaning_witness :
    stripUnd (pyRemoveAll (stripP ("power_consumption" ++ "_p3")) "sw1_") =
      stripUnd (pyRemoveAll (stripP "power_consumption") "sw1_") ∧
    stripUnd (pyRemoveAll (stripP ("power_consumption" ++ "_p3_2")) "sw1_") =
      stripUnd (pyRemoveAll (stripP "power_consumption") "sw1_") ∧
    elecPropertyOf "" (stripUnd (pyRemoveAll (stripP ("power_consumption" ++ "_p3")) "sw1_")) "" =
      elecPropertyOf "" (stripUnd (pyRemoveAll (stripP "power_consumption") "sw1_")) "" :=
  c5_suffix_cleaning_amended "power_consumption" "sw1_" "" "" (by decide)

/-- Claim C9 (corrected), counterexample: the delay is doubled before
the very first wait, so the first reconnect wait is 2 (not the claimed
initial 1), and after six consecutive disconnects the wait is 64,
exceeding the claimed ceiling of 60. -/
theorem c9_reconnect_backoff_cex : delayAfter 1 = 2 ∧ 60 < delayAfter 6 := by decide

lemma delayAfter_closed (n : Nat) : delayAfter n = if n ≤ 6 then 2 ^ n else 64 := by
  induction n with
  | zero => decide
  | succ n ih =>
    rw [delayAfter, scheduleReconnectStep, ih]
    by_cases h : n ≤ 6
    · by_cases h5 : n ≤ 5
      · have hlt : (2 : Nat) ^ n < 60 := by
          calc (2 : Nat) ^ n ≤ 2 ^ 5 := Nat.pow_le_pow_right (by norm_num) h5
          _ < 60 := by norm_num
        simp only [h, if_true, hlt, Nat.pow_succ]
        rw [if_pos (by omega : n + 1 ≤ 6)]
      · have h6 : n = 6 := by omega
        subst h6
        decide
    · have h7 : ¬(n + 1 ≤ 6) := by omega
      simp only [h, if_false, h7]
      norm_num

/-- Claim C9 (corrected), amended: the stored delay starts at 1 and is
doubled by `_schedule_reconnect` before the wait whenever it is below
60, so consecutive disconnects wait 2, 4, 8, 16, 32, 64 seconds and
then stay at 64 (the bound is 64, not 60); a successful connect resets
the stored delay to the initial 1. -/
theorem c9_reconnect_backoff_amended :
    (∀ n, delayAfter n = if n ≤ 6 then 2 ^ n else 64) ∧
    (∀ n, delayAfter n ≤ 64) ∧
    (∀ d, onConnectSuccessDelay d = initialReconnectDelay) := by
  refine ⟨delayAfter_closed, fun n => ?_, fun d => rfl⟩
  rw [delayAfter_closed]
  by_cases h : n ≤ 6
  · rw [if_pos h]
    calc (2 : Nat) ^ n ≤ 2 ^ 6 := Nat.pow_le_pow_right (by norm_num) h
    _ = 64 := by norm_num
  · rw [if_neg h]

/-- Claim C10 (confirmed): an inbound message whose payload fails JSON
decoding, or whose topic does not have at least three `/`-segments
with the first equal to `sys`, produces no reply (or any other
effect) at all. -/
theorem c10_invalid_message_dropped :
    ∀ (env : HAEnv) (devs : List DeviceConfig) (nowMs : Int) (topic : String)
      (parsed : Option InboundPayload),
      (parsed = none ∨ (splitSlash topic).length < 3 ∨ (splitSlash topic).headD "" ≠ "sys") →
      onMessage env devs nowMs topic parsed = [] := by
  intro env devs nowMs topic parsed h
  cases parsed with
  | none => rfl
  | some pl =>
    have hc : ¬(3 ≤ (splitSlash topic).length ∧ (splitSlash topic).headD "" = "sys") := by
      rcases h with h | h | h
      · exact Option.noConfusion h
      · intro hx
        omega
      · intro hx
        exact h hx.2
    simp only [onMessage, ne_eq]
    rw [if_neg hc]

/-- Witness for c10_invalid_message_dropped: a two-segment topic with a
decodable payload is dropped. -/
theorem c10_invalid_message_dropped_witness :
    onMessage (HAEnv.mk none 0) [] 0 "foo/bar" (some (InboundPayload.mk none none)) = [] :=
  c10_invalid_message_dropped (HAEnv.mk none 0) [] 0 "foo/bar"
    (some (InboundPayload.mk none none)) (Or.inr (Or.inl (by decide)))

/-- Claim C2 (corrected), counterexample: the claim's hypotheses hold
(enabled switch device resolved by routing key, control entity found)
yet with the turn_on call answering 500 the bridge emits exactly one
action invocation followed by a single `code` 500 reply — no
`code=200`/`data.state=1` reply and no telemetry re-publish, so the
claim as stated is false. -/
theorem c2_command_round_trip_cex :
    findTargetDevice [sampleSwitch] "pk" "dn" = some sampleSwitch ∧
    controlCandidates ["switch.sw1_on"] sampleSwitch.entityPfx = ["switch.sw1_on"] ∧
    handleControlCommand (HAEnv.mk (some ["switch.sw1_on"]) 500) [sampleSwitch]
        "pk" "dn" (some 1) 77 =
      [Effect.haAction "turn_on" "switch.sw1_on", Effect.reply "pk" "dn" 77 500 none] := by
  refine ⟨by decide, by decide, by decide⟩

/-- Claim C2 (corrected), amended: when additionally the source-system
action invocation reports success (HTTP 200), a `state=1` command for
an enabled switch/socket device with a found control entity produces
exactly the trace: one `turn_on` invocation on the first candidate
entity, then one reply with `code` 200 and `data.state = 1` under the
original command id, then one `state=1` telemetry re-publish — in
that order. -/
theorem c2_command_round_trip_amended :
    ∀ (env : HAEnv) (devs : List DeviceConfig) (pk dn : String) (cid : Int)
      (dev : DeviceConfig) (es : List String) (ent : String) (rest : List String),
      findTargetDevice devs pk dn = some dev →
      (dev.type = "switch" ∨ dev.type = "socket") →
      env.states = some es →
      controlCandidates es dev.entityPfx = ent :: rest →
      env.actionStatus = 200 →
      handleControlCommand env devs pk dn (some 1) cid =
        [Effect.haAction "turn_on" ent, Effect.reply pk dn cid 200 (some 1),
          Effect.publishState dev.product_key dev.device_name 1] := by
  intro env devs pk dn cid dev es ent rest hfind htype hstates hcand hact
  unfold handleControlCommand
  rw [hfind]
  have ht : (dev.type == "switch" || dev.type == "socket") = true := by
    rcases htype with h | h <;> simp [h]
  simp only [ht, if_true]
  unfold controlSwitchOrSocket
  simp only [hstates, hcand, hact]
  rfl

/-- Witness for c2_command_round_trip_amended on a concrete switch
device, entity list, and successful action status. -/
theorem c2_command_round_trip_witness :
    handleControlCommand (HAEnv.mk (some ["switch.sw1_on"]) 200) [sampleSwitch]
        "pk" "dn" (some 1) 77 =
      [Effect.haAction "turn_on" "switch.sw1_on", Effect.reply "pk" "dn" 77 200 (some 1),
        Effect.publishState sampleSwitch.product_key sampleSwitch.device_name 1] :=
  c2_command_round_trip_amended (HAEnv.mk (some ["switch.sw1_on"]) 200) [sampleSwitch]
    "pk" "dn" 77 sampleSwitch ["switch.sw1_on"] "switch.sw1_on" []
    (by decide) (Or.inl rfl) rfl (by decide) rfl

lemma lookup_append_some (l2 : List (String × String)) (p e : String) :
    ∀ l : List (String × String), l.lookup p = some e → (l ++ l2).lookup p = some e := by
  intro l
  induction l with
  | nil => intro h; simp [List.lookup] at h
  | cons hd tl ih =>
    intro h
    obtain ⟨k, v⟩ := hd
    by_cases hk : (p == k) = true <;>
      simp only [List.cons_append, List.lookup, hk] at h ⊢
    · exact h
    · exact ih h

lemma goodState_cons {x : String × DeviceEntry} {st : MatchState} :
    goodState (x :: st) ↔ goodEntry x.2 ∧ goodState st := by
  constructor
  · intro h
    exact ⟨h x (List.mem_cons_self x st), fun y hy => h y (List.mem_cons_of_mem x hy)⟩
  · rintro ⟨h1, h2⟩ y hy
    rcases List.mem_cons.mp hy with h | h
    · rw [h]; exact h1
    · exact h2 y h

lemma acceptMatch_keeps (entry : DeviceEntry) (p eid : String) :
    entryKeeps entry (acceptMatch entry p eid) := by
  intro q e hq
  unfold acceptMatch
  split
  · exact hq
  · exact lookup_append_some _ _ _ _ hq

lemma acceptMatch_good (entry : DeviceEntry) (p eid : String)
    (hg : goodEntry entry) (hp : p ∈ entry.config.supported_properties) :
    goodEntry (acceptMatch entry p eid) := by
  unfold acceptMatch
  split
  · exact hg
  · intro q hq
    simp only [List.map_append, List.mem_append, List.map_cons, List.map_nil,
      List.mem_singleton] at hq
    rcases hq with hq | hq
    · exact hg q hq
    · rw [hq]; exact hp

lemma envEntryProp_mem (core dc fn : String) (entry : DeviceEntry) (p : String)
    (h : envEntryProp core dc fn entry = some p) :
    p ∈ entry.config.supported_properties := by
  unfold envEntryProp at h
  repeat' split at h
  all_goals simp_all

lemma elecEntryProp_mem (domain core dc fn : String) (entry : DeviceEntry) (p : String)
    (h : elecEntryProp domain core dc fn entry = some p) :
    p ∈ entry.config.supported_properties := by
  unfold elecEntryProp at h
  repeat' split at h
  all_goals simp_all

lemma matchEnvLoop_good (eid core dc fn : String) :
    ∀ st : MatchState, goodState st → goodState (matchEnvLoop eid core dc fn st) := by
  intro st
  induction st with
  | nil => exact fun h => h
  | cons hd tl ih =>
    intro h
    obtain ⟨did, entry⟩ := hd
    rw [goodState_cons] at h
    unfold matchEnvLoop
    cases hp : envEntryProp core dc fn entry <;> simp only [hp]
    · exact goodState_cons.mpr ⟨h.1, ih h.2⟩
    · exact goodState_cons.mpr
        ⟨acceptMatch_good _ _ _ h.1 (envEntryProp_mem _ _ _ _ _ hp), h.2⟩

lemma matchElecLoop_good (eid domain core dc fn : String) :
    ∀ st : MatchState, goodState st → goodState (matchElecLoop eid domain core dc fn st) := by
  intro st
  induction st with
  | nil => exact fun h => h
  | cons hd tl ih =>
    intro h
    obtain ⟨did, entry⟩ := hd
    rw [goodState_cons] at h
    unfold matchElecLoop
    cases hp : elecEntryProp domain core dc fn entry <;> simp only [hp]
    · exact goodState_cons.mpr ⟨h.1, ih h.2⟩
    · exact goodState_cons.mpr
        ⟨acceptMatch_good _ _ _ h.1 (elecEntryProp_mem _ _ _ _ _ _ hp), h.2⟩

lemma processEntity_good (st : MatchState) (e : EntityState) (h : goodState st) :
    goodState (processEntity st e) := by
  unfold processEntity processEntityCore
  split
  · split
    · split
      · exact matchElecLoop_good _ _ _ _ _ _ (matchEnvLoop_good _ _ _ _ _ h)
      · exact matchElecLoop_good _ _ _ _ _ _ h
    · split
      · exact matchEnvLoop_good _ _ _ _ _ h
      · exact h
  · exact h

lemma goodState_foldl (es : List EntityState) :
    ∀ st, goodState st → goodState (es.foldl processEntity st) := by
  induction es with
  | nil => exact fun st h => h
  | cons e tl ih => exact fun st h => ih _ (processEntity_good _ _ h)

lemma initEntry_good (d : DeviceConfig) : goodEntry (initEntry d).2 := by
  intro p hp
  simp [initEntry] at hp

lemma dictInsert_good (kv : String × DeviceEntry) (hk : goodEntry kv.2) :
    ∀ st : MatchState, goodState st → goodState (dictInsert st kv) := by
  intro st
  induction st with
  | nil =>
    intro _ y hy
    rw [List.mem_singleton.mp hy]
    exact hk
  | cons hd tl ih =>
    intro h
    obtain ⟨k, v⟩ := hd
    rw [goodState_cons] at h
    unfold dictInsert
    split
    · exact goodState_cons.mpr ⟨hk, h.2⟩
    · exact goodState_cons.mpr ⟨h.1, ih h.2⟩

lemma initState_good (devs : List DeviceConfig) : goodState (initState devs) := by
  unfold initState
  suffices hgen : ∀ st, goodState st →
      goodState (devs.foldl (fun st d => dictInsert st (initEntry d)) st) from
    hgen [] (fun y hy => absurd hy (List.not_mem_nil y))
  induction devs with
  | nil => exact fun st h => h
  | cons d tl ih => exact fun st h => ih _ (dictInsert_good _ (initEntry_good d) _ h)

lemma entryKeeps_refl (a : DeviceEntry) : entryKeeps a a := fun _ _ h => h

lemma entryKeeps_trans {a b c : DeviceEntry} (h1 : entryKeeps a b) (h2 : entryKeeps b c) :
    entryKeeps a c := fun p e h => h2 p e (h1 p e h)

lemma stateKeeps_refl (st : MatchState) : stateKeeps st st := by
  induction st with
  | nil => exact List.Forall₂.nil
  | cons hd tl ih => exact List.Forall₂.cons ⟨rfl, entryKeeps_refl hd.2⟩ ih

lemma stateKeeps_trans {s1 s2 s3 : MatchState} (h12 : stateKeeps s1 s2)
    (h23 : stateKeeps s2 s3) : stateKeeps s1 s3 := by
  induction h12 generalizing s3 with
  | nil =>
    cases h23
    exact List.Forall₂.nil
  | cons hab h ih =>
    cases h23 with
    | cons hbc h2 =>
      exact List.Forall₂.cons ⟨hab.1.trans hbc.1, entryKeeps_trans hab.2 hbc.2⟩ (ih h2)

lemma matchEnvLoop_keeps (eid core dc fn : String) :
    ∀ st : MatchState, stateKeeps st (matchEnvLoop eid core dc fn st) := by
  intro st
  induction st with
  | nil => exact List.Forall₂.nil
  | cons hd tl ih =>
    obtain ⟨did, entry⟩ := hd
    unfold matchEnvLoop
    cases hp : envEntryProp core dc fn entry <;> simp only [hp]
    · exact List.Forall₂.cons ⟨rfl, entryKeeps_refl _⟩ ih
    · exact List.Forall₂.cons ⟨rfl, acceptMatch_keeps _ _ _⟩ (stateKeeps_refl tl)

lemma matchElecLoop_keeps (eid domain core dc fn : String) :
    ∀ st : MatchState, stateKeeps st (matchElecLoop eid domain core dc fn st) := by
  intro st
  induction st with
  | nil => exact List.Forall₂.nil
  | cons hd tl ih =>
    obtain ⟨did, entry⟩ := hd
    unfold matchElecLoop
    cases hp : elecEntryProp domain core dc fn entry <;> simp only [hp]
    · exact List.Forall₂.cons ⟨rfl, entryKeeps_refl _⟩ ih
    · exact List.Forall₂.cons ⟨rfl, acceptMatch_keeps _ _ _⟩ (stateKeeps_refl tl)

lemma processEntity_keeps (st : MatchState) (e : EntityState) :
    stateKeeps st (processEntity st e) := by
  unfold processEntity processEntityCore
  split
  · split
    · split
      · exact stateKeeps_trans (matchEnvLoop_keeps _ _ _ _ _)
          (matchElecLoop_keeps _ _ _ _ _ _)
      · exact matchElecLoop_keeps _ _ _ _ _ _
    · split
      · exact matchEnvLoop_keeps _ _ _ _ _
      · exact stateKeeps_refl st
  · exact stateKeeps_refl st

lemma stateKeeps_foldl (es : List EntityState) :
    ∀ st, stateKeeps st (es.foldl processEntity st) := by
  induction es with
  | nil => exact stateKeeps_refl
  | cons e tl ih =>
    intro st
    exact stateKeeps_trans (processEntity_keeps st e) (ih (processEntity st e))

/-- Claim C3 (confirmed): every property resolved for a device is one
of its supported properties; processing one more candidate entity
keeps every already-resolved property → entity binding unchanged (the
first successful match wins), and hence processing any further
candidate entities after a partial run keeps every binding. -/
theorem c3_resolution_invariants :
    (∀ (entities : List EntityState) (devs : List DeviceConfig) x,
      x ∈ matchEntitiesToDevices entities devs →
      ∀ p ∈ x.2.entities.map Prod.fst, p ∈ x.2.config.supported_properties) ∧
    (∀ (st : MatchState) (e : EntityState), stateKeeps st (processEntity st e)) ∧
    (∀ (devs : List DeviceConfig) (es more : List EntityState),
      stateKeeps (matchEntitiesToDevices es devs)
        (matchEntitiesToDevices (es ++ more) devs)) := by
  refine ⟨?_, processEntity_keeps, ?_⟩
  · intro entities devs x hx
    exact goodState_foldl entities _ (initState_good _) x hx
  · intro devs es more
    unfold matchEntitiesToDevices
    rw [List.foldl_append]
    exact stateKeeps_foldl more _

/-- Witness for c3_resolution_invariants: in the concrete resolution
of `sampleSocket` the resolved property `power` is supported. -/
theorem c3_resolution_invariants_witness :
    "power" ∈ sampleSocket.supported_properties :=
  c3_resolution_invariants.1 [EntityState.mk "sensor.sw1_power" "" ""] [sampleSocket]
    ("sw1", DeviceEntry.mk sampleSocket [("power", "sensor.sw1_power")] "sw1_")
    (by decide) "power" (by decide)

/-- Claim C6 (corrected), counterexample: the collector has no `trip`
mapping and no token extraction — `float()` is applied to the whole
raw state, so `"220 V"` raises and the property is skipped (`none`),
where the claim demands 220.0; likewise `"trip"` yields `none`, not 2. -/
theorem c6_typed_conversion_cex :
    collectValue "voltage" "220 V" [] = none ∧
    specTypedConversion "socket" "220 V" = some 220 ∧
    collectValue "state" "trip" [] = none ∧
    specTypedConversion "breaker" "trip" = some 2 := by
  refine ⟨by decide, ?_, by decide, by decide⟩
  show specExtractNumber "220 V" = some 220
  rw [specExtractNumber,
    show claimExtractParts "220 V".data = some (false, 220, 0, 0) from by decide]
  simp only [Option.map_some']
  norm_num [partsToQ]

/-- Claim C6 (corrected), amended: the collector maps `on` to 1 and
`off` to 0 for every property; any other raw state must parse as one
whole `float()` literal — `trip`, and unit-bearing states such as
`"220 V"`, fail to parse and the property is omitted; there is no
breaker-specific `trip` value and no token extraction. -/
theorem c6_typed_conversion_amended :
    (∀ prop factors, collectValue prop "on" factors = some 1 ∧
      collectValue prop "off" factors = some 0) ∧
    (∀ prop factors, collectValue prop "trip" factors = none) ∧
    (∀ prop factors st, parseFloatParts st = none → st ≠ "on" → st ≠ "off" →
      collectValue prop st factors = none) := by
  refine ⟨fun prop factors => ⟨rfl, rfl⟩, fun prop factors => rfl, ?_⟩
  intro prop factors st hparts hon hoff
  have hb : (st == "on" || st == "off") = false := by
    simp only [Bool.or_eq_false_iff, beq_eq_false_iff_ne, ne_eq]
    exact ⟨hon, hoff⟩
  simp [collectValue, hb, parseFloat, hparts]

/-- Witness for c6_typed_conversion_amended at the unit-bearing state
`"220 V"`. -/
theorem c6_typed_conversion_witness :
    collectValue "voltage" "220 V" [] = none :=
  c6_typed_conversion_amended.2.2 "voltage" [] "220 V" (by decide) (by decide) (by decide)

lemma roundChain_eq_tableRound (prop : String) (q : ℚ) :
    (if prop == "current" then roundTo 2 q
     else if prop == "active_power" || prop == "voltage" || prop == "frequency" then
       roundTo 1 q
     else if prop == "energy" then roundTo 3 q
     else q) = tableRound prop q := by
  unfold tableRound roundTable
  cases h1 : prop == "current" <;> cases h2 : prop == "active_power" <;>
    cases h3 : prop == "voltage" <;> cases h4 : prop == "frequency" <;>
    cases h5 : prop == "energy" <;>
    simp [List.lookup, h1, h2, h3, h4, h5]

lemma collectValue_parsed (prop st : String) (factors : List (String × ℚ)) (v : ℚ)
    (h : parseFloat st = some v) :
    collectValue prop st factors =
      some (tableRound prop (v * ((factors.lookup prop).getD 1))) := by
  have hon : st ≠ "on" := by
    rintro rfl
    simp [parseFloat, parseFloatParts, spanDigits] at h
  have hoff : st ≠ "off" := by
    rintro rfl
    simp [parseFloat, parseFloatParts, spanDigits] at h
  have hb : (st == "on" || st == "off") = false := by
    simp only [Bool.or_eq_false_iff, beq_eq_false_iff_ne, ne_eq]
    exact ⟨hon, hoff⟩
  rw [collectValue, hb]
  simp only [Bool.false_eq_true, if_false, h]
  rw [roundChain_eq_tableRound]

/-- Claim C7 (corrected), counterexample: a raw `temp` value 21.25
with factor 1 is collected as 21.25 — the collector never rounds the
canonical `temp` (or `hum`) property — while the claimed policy rounds
it to one decimal (21.2). -/
theorem c7_conversion_scaling_cex :
    collectValue "temp" "21.25" [] = some (85/4) ∧
    specScaledValue "temp" "21.25" [] = some (106/5) ∧
    (85/4 : ℚ) ≠ 106/5 := by
  refine ⟨?_, ?_, by norm_num⟩
  · rw [collectValue, show (("21.25" == "on") || ("21.25" == "off")) = false from by decide,
      parseFloat, show parseFloatParts "21.25" = some (false, 21, 25, 2) from by decide]
    simp only [Bool.false_eq_true, if_false, Option.map_some']
    norm_num [partsToQ]
    simp
  · rw [specScaledValue, show (("21.25" == "on") || ("21.25" == "off")) = false from by decide,
      parseFloat, show parseFloatParts "21.25" = some (false, 21, 25, 2) from by decide]
    simp only [Bool.false_eq_true, if_false, Option.map_some']
    norm_num [partsToQ, specRoundPolicy, List.lookup, roundTo, rhe]
    decide

/-- Claim C7 (corrected), amended: every successfully parsed raw value
is multiplied by the conversion factor for the property (default 1)
and rounded by the implemented table — current to 2 decimals,
active_power/voltage/frequency to 1, energy to 3; `temp`, `hum` and
the canonical `power` are not rounded; `on`/`off` states are mapped to
1/0 without any scaling; raw 100 with factor 0.1 for current yields
10. -/
theorem c7_conversion_scaling_amended :
    (∀ (prop st : String) (factors : List (String × ℚ)) (v : ℚ), parseFloat st = some v →
      collectValue prop st factors =
        some (tableRound prop (v * ((factors.lookup prop).getD 1)))) ∧
    (∀ prop factors, collectValue prop "on" factors = some 1 ∧
      collectValue prop "off" factors = some 0) ∧
    collectValue "current" "100" [("current", 1/10)] = some 10 := by
  refine ⟨collectValue_parsed, fun prop factors => ⟨rfl, rfl⟩, ?_⟩
  rw [collectValue, show (("100" == "on") || ("100" == "off")) = false from by decide,
    parseFloat, show parseFloatParts "100" = some (false, 100, 0, 0) from by decide]
  simp only [Bool.false_eq_true, if_false, Option.map_some']
  norm_num [partsToQ, List.lookup, roundTo, rhe]

/-- Witness for c7_conversion_scaling_amended: the parsed-value clause
applied to the raw state `21.25` for `temp`. -/
theorem c7_conversion_scaling_witness :
    collectValue "temp" "21.25" [] =
      some (tableRound "temp" ((85/4 : ℚ) * ((([] : List (String × ℚ)).lookup "temp").getD 1))) :=
  c7_conversion_scaling_amended.1 "temp" "21.25" [] (85/4) (by
    rw [parseFloat, show parseFloatParts "21.25" = some (false, 21, 25, 2) from by decide]
    simp only [Option.map_some']
    norm_num [partsToQ])

/-- Claim C8 (corrected), counterexample: a socket device with
`current` among its supported properties but no resolved entity gets
an empty payload — the collector performs no default substitution at
all (no battery 100, no voltage 220, no current/power 0). -/
theorem c8_default_substitution_cex :
    collectDeviceData (fun _ => none) sampleSocket2 [] = [] ∧
    "current" ∈ sampleSocket2.supported_properties := by
  exact ⟨rfl, by decide⟩

/-- Claim C8 (corrected), amended: the collected payload only ever
contains properties that appear in the resolved property → entity map;
properties without a resolved entity (or whose read or conversion
failed) are omitted, never substituted by defaults. -/
theorem c8_default_substitution_amended :
    ∀ (env : String → Option String) (dev : DeviceConfig)
      (matched : List (String × String)) (p : String),
      p ∈ (collectDeviceData env dev matched).map Prod.fst → p ∈ matched.map Prod.fst := by
  intro env dev matched
  induction matched with
  | nil =>
    intro p hp
    simp [collectDeviceData] at hp
  | cons hd tl ih =>
    intro p hp
    obtain ⟨prop, eid⟩ := hd
    cases he : env eid <;> simp only [collectDeviceData, he] at hp
    · exact List.mem_cons_of_mem _ (ih p hp)
    · rename_i st
      cases hc : collectValue prop st dev.conversion_factors <;> simp only [hc] at hp
      · exact List.mem_cons_of_mem _ (ih p hp)
      · simp only [List.map_cons, List.mem_cons] at hp ⊢
        rcases hp with hp | hp
        · exact Or.inl hp
        · exact Or.inr (ih p hp)

/-- Witness for c8_default_substitution_amended on a one-entry
resolved map whose entity reads `on`. -/
theorem c8_default_substitution_witness :
    "state" ∈ (([("state", "switch.x_on")] : List (String × String)).map Prod.fst) :=
  c8_default_substitution_amended (fun _ => some "on") sampleSocket2
    [("state", "switch.x_on")] "state" (by decide)
